import Mathlib

/-!
# Keyframe mosaic renderer (`src/main.cpp`)

Shallow embedding of the selection metric, the keyframe scan, the keyframe
bank, the tile matcher and the grid compositor of `src/main.cpp`.

Modelling conventions.

* A `cv::Mat` of `Vec3b` pixels is its header (`rows`, `cols`) together with a
  pixel reader `px y x`.  `Mat::at` performs no bounds check in the program, so
  the reader is total; every theorem that depends on pixel values states the
  bounds under which the reads are inside the image.
* C++ `int` values are mathematical integers.  In `compare_frames` the
  accumulated distance is at most `30 * 30 * 765`, and in `get_closest_index`
  every value is at most `cols * rows * 765` (lemma `cell_distance_le`), so the
  model is exact whenever that product is below `2 ^ 31`.
* `float`/`double` values are exact rationals: `SAMPLE_WEIGHT` is
  `1 / (3 * 30 * 30)`, `1.0 / RESOLUTION` is `1 / RESOLUTION`.
* File output (`imwrite`) and console output are not part of the model, except
  in `pick_keyframes` over file names, whose only result is the list of files
  it writes.
* `cv::resize` is a library routine: its result has the requested size, and
  its pixel values are given by an interpolation parameter.
* `vector::operator[]` is unchecked; an index outside the vector is reported
  as `Exn.undefined`.
-/

namespace BadApple

/-! ## Data model -/

/-- Pixel of a `CV_8UC3` image: three unsigned 8-bit channels (`cv::Vec3b`). -/
structure Vec3b where
  c0 : Fin 256
  c1 : Fin 256
  c2 : Fin 256
deriving DecidableEq

/-- Image header and pixel reader of a `cv::Mat`; `px y x` is `at<Vec3b>(y, x)`. -/
structure Mat where
  rows : Nat
  cols : Nat
  px : Nat → Nat → Vec3b

/-- Ways a call can fail to return: `std::out_of_range` from `vector::at`,
`cv::Exception` from a failed OpenCV assertion, and undefined behaviour of an
unchecked `vector::operator[]` outside the vector. -/
inductive Exn where
  | out_of_range
  | cv_assert
  | undefined
deriving DecidableEq

/-! ## Constants (lines 9-16) -/

def SAMPLING_DENSITY : Nat := 30

def SAMPLE_WEIGHT : ℚ := 1 / (3 * SAMPLING_DENSITY * SAMPLING_DENSITY)

def THRESHOLD : ℚ := 24

/-- The grid constants `RESOLUTION` and `SCALE` (lines 13 and 16).  They are
carried as a record so that the scenarios of the specification with other
values can be stated about the same definitions. -/
structure Params where
  RESOLUTION : Nat
  SCALE : Nat

/-- The values compiled into the program: `RESOLUTION = 18`, `SCALE = 2`. -/
def Params.program : Params := ⟨18, 2⟩

/-! ## compare_frames (lines 40-62) -/

/-- The argument of `abs` at lines 54-57 and 266-269: the three signed channel
differences `q - p` are added before the absolute value is taken. -/
def channel_sum (p q : Vec3b) : Int :=
  (q.c0.val : Int) - (p.c0.val : Int) + (q.c1.val : Int) - (p.c1.val : Int)
    + (q.c2.val : Int) - (p.c2.val : Int)

/-- Body of the inner loop of `compare_frames` for one `(row, col)`. -/
def sample_term (m1 m2 : Mat) (row col : Nat) : Int :=
  let x := col * m1.cols / SAMPLING_DENSITY
  let y := row * m1.rows / SAMPLING_DENSITY
  ((channel_sum (m1.px y x) (m2.px y x)).natAbs : Int)

/-- The two nested loops of `compare_frames`: value of `distance` at line 61. -/
def sample_distance (m1 m2 : Mat) : Int :=
  (List.range SAMPLING_DENSITY).foldl
    (fun distance row =>
      (List.range SAMPLING_DENSITY).foldl
        (fun distance col => distance + sample_term m1 m2 row col) distance)
    0

def compare_frames (m1 m2 : Mat) : ℚ :=
  if m1.rows ≠ m2.rows then 0
  else if m1.cols ≠ m2.cols then 0
  else (sample_distance m1 m2 : ℚ) * SAMPLE_WEIGHT

/-! ## pick_keyframes over in-memory frames (lines 112-136) -/

/-- The range-for loop of `pick_keyframes` (lines 124-132) over the frames not
yet visited, with the loop state `previous_frame`, `keyframes`. -/
def pick_loop (T : ℚ) : List Mat → Mat → List Mat → List Mat
  | [], _, keyframes => keyframes
  | frame :: rest, previous_frame, keyframes =>
    if compare_frames previous_frame frame > T then
      pick_loop T rest frame (keyframes ++ [frame])
    else
      pick_loop T rest previous_frame keyframes

/-- The function `pick_keyframes(const vector<Mat>&)` with the threshold as a parameter.
`frame_pool.at(0)` throws on an empty pool; the loop then runs over the whole
pool, frame 0 included. -/
def pick_keyframes_at (T : ℚ) (frame_pool : List Mat) : Except Exn (List Mat) :=
  match frame_pool with
  | [] => .error .out_of_range
  | frame0 :: _ => .ok (pick_loop T frame_pool frame0 [frame0])

def pick_keyframes (frame_pool : List Mat) : Except Exn (List Mat) :=
  pick_keyframes_at THRESHOLD frame_pool

/-- Reference scan, in the words of the specification (section 4.2): the frames
after `last_selected` that are selected, scanning in order. -/
def select_rest (T : ℚ) (last_selected : Mat) : List Mat → List Mat
  | [] => []
  | f :: fs =>
    if compare_frames last_selected f > T then f :: select_rest T f fs
    else select_rest T last_selected fs

/-- Uniform image: every pixel is `(v, v, v)`. -/
def gray (rows cols : Nat) (v : Fin 256) : Mat :=
  ⟨rows, cols, fun _ _ => ⟨v, v, v⟩⟩

/-- Number of keyframes selected at threshold `T` (0 when the call fails). -/
def keyframe_count (T : ℚ) (frame_pool : List Mat) : Nat :=
  match pick_keyframes_at T frame_pool with
  | .ok keyframes => keyframes.length
  | .error _ => 0

/-- Value of the `abs` term at any sample of two uniform images `(v, v, v)` and
`(w, w, w)`. -/
def gray_delta (v w : Fin 256) : Int :=
  (((w.val : Int) - v.val + w.val - v.val + w.val - v.val).natAbs : Int)

/-! ## Keyframe bank (lines 14-20 and 202-247) -/

/-- The mutable globals `X_STEP`, `Y_STEP`, `ref_keyframes`, `render_keyframes`. -/
structure Globals where
  X_STEP : Int
  Y_STEP : Int
  ref_keyframes : List Mat
  render_keyframes : List Mat

/-- State of the globals at program start: zero-initialised ints, empty vectors. -/
def Globals.init : Globals := ⟨0, 0, [], []⟩

/-- Library call `cv::resize(src, dst, Size(width, height), INTER_LINEAR)`: the
destination has the requested size; `interp src width height y x` is the
interpolated pixel at `(y, x)`. -/
def resize (interp : Mat → Nat → Nat → Nat → Nat → Vec3b) (src : Mat)
    (width height : Int) : Mat :=
  ⟨height.toNat, width.toNat, interp src width.toNat height.toNat⟩

def resize_keyframe (P : Params) (interp : Mat → Nat → Nat → Nat → Nat → Vec3b)
    (g : Globals) (keyframe : Mat) : Globals :=
  let ref_sized := resize interp keyframe g.X_STEP g.Y_STEP
  let render_sized := resize interp keyframe (g.X_STEP * P.SCALE) (g.Y_STEP * P.SCALE)
  { g with
    ref_keyframes := g.ref_keyframes ++ [ref_sized]
    render_keyframes := g.render_keyframes ++ [render_sized] }

/-- Lines 222-224 and 235-237: `X_STEP` and `Y_STEP` from the first keyframe. -/
def set_steps (P : Params) (g : Globals) (_kf : Mat) : Globals :=
  let scale : ℚ := 1 / (P.RESOLUTION : ℚ)
  { g with X_STEP := ⌈scale * (_kf.cols : ℚ)⌉, Y_STEP := ⌈scale * (_kf.rows : ℚ)⌉ }

/-- The function `resize_keyframes(vector<Mat>)` (lines 218-229).  The loop variable
`keyframe` is not used by the loop body, which passes `_kf` to
`resize_keyframe`. -/
def resize_keyframes (P : Params) (interp : Mat → Nat → Nat → Nat → Nat → Vec3b)
    (g : Globals) (keyframes : List Mat) : Globals :=
  match keyframes with
  | [] => g
  | _kf :: _ =>
    keyframes.foldl (fun g _keyframe => resize_keyframe P interp g _kf) (set_steps P g _kf)

/-- The function `resize_keyframes(vector<String>)` (lines 231-247); `get_frame_at`
is the image read from a file name. -/
def resize_keyframes_files (P : Params) (interp : Mat → Nat → Nat → Nat → Nat → Vec3b)
    (get_frame_at : String → Mat) (g : Globals) (filenames : List String) : Globals :=
  match filenames with
  | [] => g
  | filename0 :: _ =>
    filenames.foldl
      (fun g filename => resize_keyframe P interp g (get_frame_at filename))
      (set_steps P g (get_frame_at filename0))

/-- Nearest-sample interpolation, a concrete instance of the interpolation
parameter used to evaluate the bank on explicit images. -/
def nearest (src : Mat) (width height y x : Nat) : Vec3b :=
  src.px (y * src.rows / height) (x * src.cols / width)

/-- Size invariant of a bank of `n` keyframes built from a first keyframe of
`cols` x `rows` pixels: the step sizes are the exact ceilings, both vectors hold
`n` images, and at every index the reference image is `X_STEP` x `Y_STEP` and
the render image is `SCALE` times as large in both dimensions. -/
def Globals.well_sized (P : Params) (g : Globals) (cols rows n : Nat) : Prop :=
  g.X_STEP = ⌈(cols : ℚ) / (P.RESOLUTION : ℚ)⌉ ∧
  g.Y_STEP = ⌈(rows : ℚ) / (P.RESOLUTION : ℚ)⌉ ∧
  g.ref_keyframes.length = n ∧
  g.render_keyframes.length = g.ref_keyframes.length ∧
  ∀ i : Nat, i < n →
    ∃ (ref render : Mat),
      g.ref_keyframes[i]? = some ref ∧ g.render_keyframes[i]? = some render ∧
      (ref.cols : Int) = g.X_STEP ∧ (ref.rows : Int) = g.Y_STEP ∧
      (render.cols : Int) = g.X_STEP * P.SCALE ∧ (render.rows : Int) = g.Y_STEP * P.SCALE ∧
      render.cols = ref.cols * P.SCALE ∧ render.rows = ref.rows * P.SCALE

/-! ## get_closest_index (lines 254-279) -/

/-- Body of the innermost loop (lines 263-269) for one `(y, x)`. -/
def cell_term (frame_cell ref : Mat) (y x : Nat) : Int :=
  ((channel_sum (ref.px y x) (frame_cell.px y x)).natAbs : Int)

/-- Lines 260-271: value of `this_distance` for one reference image. -/
def cell_distance (frame_cell ref : Mat) : Int :=
  (List.range frame_cell.rows).foldl
    (fun this_distance y =>
      (List.range frame_cell.cols).foldl
        (fun this_distance x => this_distance + cell_term frame_cell ref y x) this_distance)
    0

/-- Loop over the bank (lines 259-276) from index `i` on, with the loop state
`closest_index`, `distance`. -/
def closest_loop (frame_cell : Mat) : List Mat → Nat → Nat → Int → Nat
  | [], _, closest_index, _ => closest_index
  | ref :: rest, i, closest_index, distance =>
    let this_distance := cell_distance frame_cell ref
    if this_distance ≥ distance then closest_loop frame_cell rest (i + 1) closest_index distance
    else closest_loop frame_cell rest (i + 1) i this_distance

def get_closest_index (ref_keyframes : List Mat) (frame_cell : Mat) : Nat :=
  closest_loop frame_cell ref_keyframes 0 0
    ((frame_cell.cols : Int) * (frame_cell.rows : Int) * 255 * 3)

/-- Distance of the specification (section 4.4): the sum over all pixels of the
cell of `|dr + dg + db|` against the top-left sub-region of the reference
image. -/
def pixel_distance (cell ref : Mat) : Int :=
  ∑ y in Finset.range cell.rows, ∑ x in Finset.range cell.cols,
    |channel_sum (ref.px y x) (cell.px y x)|

/-- Image of the given size whose pixels are all `p`. -/
def solid (rows cols : Nat) (p : Vec3b) : Mat :=
  ⟨rows, cols, fun _ _ => p⟩

/-! ## render_frame (lines 286-321) -/

structure Rect where
  x : Int
  y : Int
  width : Int
  height : Int
deriving DecidableEq

/-- View `Mat::operator()(const Rect&)`: a view of the rectangle, after OpenCV's
assertion that the rectangle lies inside the matrix. -/
def Mat.roi (m : Mat) (r : Rect) : Except Exn Mat :=
  if 0 ≤ r.x ∧ 0 ≤ r.width ∧ r.x + r.width ≤ m.cols ∧
      0 ≤ r.y ∧ 0 ≤ r.height ∧ r.y + r.height ≤ m.rows then
    .ok ⟨r.height.toNat, r.width.toNat, fun y x => m.px (r.y.toNat + y) (r.x.toNat + x)⟩
  else .error .cv_assert

/-- Zero image `Mat::zeros(Size(width, height), CV_8UC3)`. -/
def Mat.zeros (width height : Nat) : Mat :=
  ⟨height, width, fun _ _ => ⟨0, 0, 0⟩⟩

/-- Copy `src.copyTo(dst_roi)` where `dst_roi` is the view of `r` in `canvas` and has
the size of `src`: the pixels of `r` are overwritten. -/
def copyTo (src canvas : Mat) (r : Rect) : Mat :=
  { canvas with
    px := fun y x =>
      if r.y ≤ y ∧ (y : Int) < r.y + r.height ∧ r.x ≤ x ∧ (x : Int) < r.x + r.width then
        src.px (y - r.y.toNat) (x - r.x.toNat)
      else canvas.px y x }

/-- C `round` on a `double`: nearest integer, halves away from zero. -/
def cround (q : ℚ) : Int :=
  if 0 ≤ q then ⌊q + 1 / 2⌋ else -⌊-q + 1 / 2⌋

/-- Lines 292-296: `clamp_start_x` for grid column `x` (and `clamp_start_y` with
the frame's `rows`). -/
def clamp_start (P : Params) (x : Nat) (extent : Nat) : Int :=
  cround ((x : ℚ) / (P.RESOLUTION : ℚ) * (extent : ℚ))

/-- Lines 298-302: the rectangle of the frame cell at grid position `(x, y)`. -/
def cell_rect (P : Params) (g : Globals) (frame : Mat) (x y : Nat) : Rect :=
  let clamp_start_x := clamp_start P x frame.cols
  let clamp_start_y := clamp_start P y frame.rows
  ⟨clamp_start_x, clamp_start_y,
    min g.X_STEP ((frame.cols : Int) - clamp_start_x),
    min g.Y_STEP ((frame.rows : Int) - clamp_start_y)⟩

/-- Lines 306-310: the destination rectangle on the canvas `render`. -/
def dst_rect (P : Params) (g : Globals) (frame render : Mat) (x y : Nat) : Rect :=
  let clamp_start_x := clamp_start P x frame.cols
  let clamp_start_y := clamp_start P y frame.rows
  ⟨clamp_start_x * P.SCALE, clamp_start_y * P.SCALE,
    min (g.X_STEP * P.SCALE) ((render.cols : Int) - clamp_start_x * P.SCALE),
    min (g.Y_STEP * P.SCALE) ((render.rows : Int) - clamp_start_y * P.SCALE)⟩

/-- Body of the inner loop of `render_frame` (lines 292-316) at grid position
`(x, y)`, acting on the canvas. -/
def render_cell (P : Params) (g : Globals) (frame render : Mat) (x y : Nat) :
    Except Exn Mat := do
  let frame_roi ← frame.roi (cell_rect P g frame x y)
  let closest_index := get_closest_index g.ref_keyframes frame_roi
  let closest ← match g.render_keyframes.get? closest_index with
    | some m => pure m
    | none => throw Exn.undefined
  let d := dst_rect P g frame render x y
  let _dst_roi ← render.roi d
  let src_roi ← closest.roi ⟨0, 0, d.width, d.height⟩
  pure (copyTo src_roi render d)

def render_frame (P : Params) (g : Globals) (frame : Mat) : Except Exn Mat :=
  (List.range P.RESOLUTION).foldlM
    (fun render y =>
      (List.range P.RESOLUTION).foldlM
        (fun render x => render_cell P g frame render x y) render)
    (Mat.zeros (frame.cols * P.SCALE) (frame.rows * P.SCALE))

/-- Membership of the pixel `(px, py)` in a rectangle. -/
def Rect.contains (r : Rect) (px py : Int) : Prop :=
  r.x ≤ px ∧ px < r.x + r.width ∧ r.y ≤ py ∧ py < r.y + r.height

/-! ## Sample coordinates of compare_frames (lines 48-49) -/

/-- The range-for loop of lines 165-177 over the file names not yet visited, with
the loop state `last_keyframe`, `keyframe_counter` and the files written so
far; a written file is the pair of its number (the argument of `pad`) and its
image. -/
def pick_files_loop (T : ℚ) (get_frame_at : String → Mat) :
    List String → Mat → Nat → List (Nat × Mat) → List (Nat × Mat)
  | [], _, _, written => written
  | filename :: rest, last_keyframe, keyframe_counter, written =>
    let this_frame := get_frame_at filename
    if compare_frames last_keyframe this_frame > T then
      pick_files_loop T get_frame_at rest this_frame (keyframe_counter + 1)
        (written ++ [(keyframe_counter + 1, this_frame)])
    else
      pick_files_loop T get_frame_at rest last_keyframe keyframe_counter written

/-- The function `pick_keyframes(vector<String>)`: the keyframe files it writes, in
order.  `filenames.at(0)` and `filenames.at(362)` throw when the index is
outside the vector (a file written before the throw is not reported); frame 0
is written as file 0 and becomes `last_keyframe`, frame 362 is written as file
1 and does not become `last_keyframe`; the loop then runs over every file
name. -/
def pick_keyframes_files (get_frame_at : String → Mat) (filenames : List String) :
    Except Exn (List (Nat × Mat)) :=
  match filenames.get? 0 with
  | none => .error .out_of_range
  | some filename0 =>
    let last_keyframe := get_frame_at filename0
    match filenames.get? 362 with
    | none => .error .out_of_range
    | some filename362 =>
      .ok (pick_files_loop THRESHOLD get_frame_at filenames last_keyframe 1
        [(0, get_frame_at filename0), (1, get_frame_at filename362)])

/-! ## Lemmas on the sampled metric -/

theorem foldl_add_eq_sum {α : Type} (f : α → Int) (l : List α) (a : Int) :
    l.foldl (fun acc i => acc + f i) a = a + (l.map f).sum := by
  induction l generalizing a with
  | nil => simp
  | cons x xs ih => simp [List.foldl_cons, ih, add_assoc]

theorem sample_distance_eq_sum (m1 m2 : Mat) :
    sample_distance m1 m2 =
      ((List.range SAMPLING_DENSITY).map (fun row =>
        ((List.range SAMPLING_DENSITY).map (fun col => sample_term m1 m2 row col)).sum)).sum := by
  unfold sample_distance
  simp only [foldl_add_eq_sum, zero_add]

theorem channel_sum_self (p : Vec3b) : channel_sum p p = 0 := by
  unfold channel_sum; ring

theorem sample_distance_self (a : Mat) : sample_distance a a = 0 := by
  rw [sample_distance_eq_sum]
  simp [sample_term, channel_sum_self]

theorem compare_frames_self (a : Mat) : compare_frames a a = 0 := by
  simp [compare_frames, sample_distance_self]

theorem sample_distance_gray (r c r2 c2 : Nat) (v w : Fin 256) :
    sample_distance (gray r c v) (gray r2 c2 w) = 900 * gray_delta v w := by
  rw [sample_distance_eq_sum]
  have hterm : ∀ row col, sample_term (gray r c v) (gray r2 c2 w) row col = gray_delta v w :=
    fun _ _ => rfl
  simp only [hterm, List.map_const', List.sum_replicate, List.length_range, smul_eq_mul,
    SAMPLING_DENSITY, nsmul_eq_mul]
  push_cast
  ring

theorem compare_gray (r c : Nat) (v w : Fin 256) :
    compare_frames (gray r c v) (gray r c w) = (gray_delta v w : ℚ) / 3 := by
  have h := sample_distance_gray r c r c v w
  unfold compare_frames
  rw [h]
  simp only [gray, ne_eq, not_true_eq_false, if_false, SAMPLE_WEIGHT, SAMPLING_DENSITY]
  push_cast
  ring

/-! ## The keyframe scan -/

theorem threshold_nonneg : ¬ ((0 : ℚ) > THRESHOLD) := by
  unfold THRESHOLD; norm_num

theorem pick_loop_eq_select_rest (T : ℚ) :
    ∀ (rest : List Mat) (prev : Mat) (kfs : List Mat),
      pick_loop T rest prev kfs = kfs ++ select_rest T prev rest := by
  intro rest
  induction rest with
  | nil => intro prev kfs; simp [pick_loop, select_rest]
  | cons f rest ih =>
    intro prev kfs
    unfold pick_loop select_rest
    split_ifs with hc
    · rw [ih]; simp
    · rw [ih]

theorem pick_keyframes_cons (f0 : Mat) (rest : List Mat) :
    pick_keyframes (f0 :: rest) = .ok (pick_loop THRESHOLD rest f0 [f0]) := by
  simp only [pick_keyframes, pick_keyframes_at]
  rw [pick_loop]
  simp [compare_frames_self, threshold_nonneg]

theorem compare_gray_val (r c : Nat) (v w : Fin 256) (d : Int) (h : gray_delta v w = 3 * d) :
    compare_frames (gray r c v) (gray r c w) = (d : ℚ) := by
  rw [compare_gray, h]; push_cast; ring

theorem select_rest_self_cons (T : ℚ) (f0 : Mat) (rest : List Mat) :
    (select_rest T f0 (f0 :: rest)).length
      = (if (0 : ℚ) > T then 1 else 0) + (select_rest T f0 rest).length := by
  rw [select_rest, compare_frames_self]
  split_ifs <;> simp [Nat.add_comm]

theorem keyframe_count_cons (T : ℚ) (f0 : Mat) (rest : List Mat) :
    keyframe_count T (f0 :: rest)
      = 1 + ((if (0 : ℚ) > T then 1 else 0) + (select_rest T f0 rest).length) := by
  simp only [keyframe_count, pick_keyframes_at, pick_loop_eq_select_rest, List.length_append,
    List.length_singleton, select_rest_self_cons]

/-- Claim C3, refuted as stated: on four uniform 10x10 frames of grey levels
0, 25, 40, 5 the scan selects two keyframes at threshold 24 and three keyframes
at the larger threshold 30. -/
theorem keyframe_count_not_antitone :
    (24 : ℚ) < 30 ∧
    keyframe_count 24 [gray 10 10 0, gray 10 10 25, gray 10 10 40, gray 10 10 5] = 2 ∧
    keyframe_count 30 [gray 10 10 0, gray 10 10 25, gray 10 10 40, gray 10 10 5] = 3 ∧
    ¬ (keyframe_count 30 [gray 10 10 0, gray 10 10 25, gray 10 10 40, gray 10 10 5]
        ≤ keyframe_count 24 [gray 10 10 0, gray 10 10 25, gray 10 10 40, gray 10 10 5]) := by
  have h1 : compare_frames (gray 10 10 0) (gray 10 10 25) = 25 := by
    simpa using compare_gray_val 10 10 0 25 25 (by decide)
  have h2 : compare_frames (gray 10 10 25) (gray 10 10 40) = 15 := by
    simpa using compare_gray_val 10 10 25 40 15 (by decide)
  have h3 : compare_frames (gray 10 10 25) (gray 10 10 5) = 20 := by
    simpa using compare_gray_val 10 10 25 5 20 (by decide)
  have h4 : compare_frames (gray 10 10 0) (gray 10 10 40) = 40 := by
    simpa using compare_gray_val 10 10 0 40 40 (by decide)
  have h5 : compare_frames (gray 10 10 40) (gray 10 10 5) = 35 := by
    simpa using compare_gray_val 10 10 40 5 35 (by decide)
  have c24 : keyframe_count 24 [gray 10 10 0, gray 10 10 25, gray 10 10 40, gray 10 10 5] = 2 := by
    rw [keyframe_count_cons]
    simp only [select_rest, h1, h2, h3]
    norm_num
  have c30 : keyframe_count 30 [gray 10 10 0, gray 10 10 25, gray 10 10 40, gray 10 10 5] = 3 := by
    rw [keyframe_count_cons]
    simp only [select_rest, h1, h4, h5]
    norm_num
  refine ⟨by norm_num, c24, c30, ?_⟩
  rw [c24, c30]; decide

/-- Claim C3, amended: for every non-empty frame sequence of at most three frames and
all thresholds `T1 < T2`, the scan selects no more keyframes at `T2` than at
`T1`. -/
theorem keyframe_count_antitone_upto_three (frames : List Mat) (T1 T2 : ℚ)
    (hne : frames ≠ []) (hlen : frames.length ≤ 3) (hT : T1 < T2) :
    keyframe_count T2 frames ≤ keyframe_count T1 frames := by
  obtain ⟨f0, rest, rfl⟩ := List.exists_cons_of_ne_nil hne
  rw [keyframe_count_cons, keyframe_count_cons]
  have h0 : (if (0 : ℚ) > T2 then 1 else 0) ≤ (if (0 : ℚ) > T1 then 1 else 0) := by
    split_ifs with a b
    · exact le_refl _
    · exact absurd (lt_trans hT a) b
    · exact Nat.zero_le _
    · exact le_refl _
  have hrest : (select_rest T2 f0 rest).length ≤ (select_rest T1 f0 rest).length := by
    match rest, hlen with
    | [], _ => simp [select_rest]
    | [f1], _ =>
      simp only [select_rest]
      split_ifs with a b
      · exact le_refl _
      · exact absurd (lt_trans hT a) b
      · simp
      · exact le_refl _
    | [f1, f2], _ =>
      simp only [select_rest]
      split_ifs <;> simp <;> linarith
    | _ :: _ :: _ :: _, h => simp at h
  omega

theorem keyframe_count_antitone_upto_three_witness :
    [gray 10 10 0, gray 10 10 25, gray 10 10 40] ≠ [] ∧
    [gray 10 10 0, gray 10 10 25, gray 10 10 40].length ≤ 3 ∧ (24 : ℚ) < 30 ∧
    keyframe_count 30 [gray 10 10 0, gray 10 10 25, gray 10 10 40]
      ≤ keyframe_count 24 [gray 10 10 0, gray 10 10 25, gray 10 10 40] :=
  ⟨by simp, by simp, by norm_num,
    keyframe_count_antitone_upto_three _ 24 30 (by simp) (by simp) (by norm_num)⟩

/-! ## The tile matcher -/

theorem list_sum_range_eq (f : Nat → Int) (n : Nat) :
    ((List.range n).map f).sum = ∑ i in Finset.range n, f i := by
  induction n with
  | zero => simp
  | succ n ih => rw [List.range_succ, List.map_append, List.sum_append, ih, Finset.sum_range_succ]; simp

theorem cell_distance_eq_pixel_distance (cell ref : Mat) :
    cell_distance cell ref = pixel_distance cell ref := by
  unfold cell_distance pixel_distance
  simp only [foldl_add_eq_sum, zero_add, list_sum_range_eq, cell_term, Int.natCast_natAbs]

theorem channel_abs_le (p q : Vec3b) : |channel_sum p q| ≤ 765 := by
  have h0 := p.c0.isLt
  have h1 := p.c1.isLt
  have h2 := p.c2.isLt
  have k0 := q.c0.isLt
  have k1 := q.c1.isLt
  have k2 := q.c2.isLt
  unfold channel_sum
  rw [abs_le]
  constructor <;> omega

theorem pixel_distance_le (cell ref : Mat) :
    pixel_distance cell ref ≤ (cell.cols : Int) * (cell.rows : Int) * 255 * 3 := by
  unfold pixel_distance
  have hrow : ∀ y ∈ Finset.range cell.rows,
      (∑ x in Finset.range cell.cols, |channel_sum (ref.px y x) (cell.px y x)|)
        ≤ (cell.cols : Int) * 765 := by
    intro y _
    calc (∑ x in Finset.range cell.cols, |channel_sum (ref.px y x) (cell.px y x)|)
        ≤ ∑ _x in Finset.range cell.cols, (765 : Int) :=
          Finset.sum_le_sum (fun x _ => channel_abs_le _ _)
      _ = (cell.cols : Int) * 765 := by simp
  calc (∑ y in Finset.range cell.rows, ∑ x in Finset.range cell.cols,
          |channel_sum (ref.px y x) (cell.px y x)|)
      ≤ ∑ _y in Finset.range cell.rows, (cell.cols : Int) * 765 := Finset.sum_le_sum hrow
    _ = (cell.cols : Int) * (cell.rows : Int) * 255 * 3 := by simp; ring

theorem cell_distance_le (cell ref : Mat) :
    cell_distance cell ref ≤ (cell.cols : Int) * (cell.rows : Int) * 255 * 3 := by
  rw [cell_distance_eq_pixel_distance]; exact pixel_distance_le cell ref

theorem closest_loop_spec (cell : Mat) :
    ∀ (rest : List Mat) (i best : Nat) (d : Int),
      (closest_loop cell rest i best d = best ∧
        ∀ (j : Nat) (mj : Mat), rest[j]? = some mj → d ≤ cell_distance cell mj) ∨
      (∃ (k : Nat) (m : Mat), rest[k]? = some m ∧ closest_loop cell rest i best d = i + k ∧
        cell_distance cell m < d ∧
        ∀ (j : Nat) (mj : Mat), rest[j]? = some mj →
          cell_distance cell m ≤ cell_distance cell mj ∧
          (j < k → cell_distance cell m < cell_distance cell mj)) := by
  intro rest
  induction rest with
  | nil =>
    intro i best d
    left
    exact ⟨rfl, by simp⟩
  | cons ref rest ih =>
    intro i best d
    unfold closest_loop
    simp only
    split_ifs with hge
    · rcases ih (i + 1) best d with ⟨hr, hall⟩ | ⟨k, m, hk, hr, hlt, hmin⟩
      · left
        refine ⟨hr, ?_⟩
        intro j mj hj
        cases j with
        | zero => simp at hj; subst hj; exact hge
        | succ j => exact hall j mj (by simpa using hj)
      · right
        refine ⟨k + 1, m, by simpa using hk, by rw [hr]; omega, hlt, ?_⟩
        intro j mj hj
        cases j with
        | zero =>
          simp at hj; subst hj
          have : cell_distance cell m < cell_distance cell ref := lt_of_lt_of_le hlt hge
          exact ⟨le_of_lt this, fun _ => this⟩
        | succ j =>
          obtain ⟨h1, h2⟩ := hmin j mj (by simpa using hj)
          exact ⟨h1, fun hjk => h2 (by omega)⟩
    · have hlt0 : cell_distance cell ref < d := lt_of_not_ge hge
      rcases ih (i + 1) i (cell_distance cell ref) with ⟨hr, hall⟩ | ⟨k, m, hk, hr, hlt, hmin⟩
      · right
        refine ⟨0, ref, by simp, by rw [hr]; rfl, hlt0, ?_⟩
        intro j mj hj
        cases j with
        | zero => simp at hj; subst hj; exact ⟨le_refl _, fun h => absurd h (by omega)⟩
        | succ j => exact ⟨hall j mj (by simpa using hj), fun h => absurd h (by omega)⟩
      · right
        refine ⟨k + 1, m, by simpa using hk, by rw [hr]; omega, lt_trans hlt hlt0, ?_⟩
        intro j mj hj
        cases j with
        | zero =>
          simp at hj; subst hj
          exact ⟨le_of_lt hlt, fun _ => hlt⟩
        | succ j =>
          obtain ⟨h1, h2⟩ := hmin j mj (by simpa using hj)
          exact ⟨h1, fun hjk => h2 (by omega)⟩

theorem get_closest_index_first_min (refs : List Mat) (cell : Mat) (hne : refs ≠ []) :
    ∃ m, refs[get_closest_index refs cell]? = some m ∧
      ∀ (j : Nat) (mj : Mat), refs[j]? = some mj →
        pixel_distance cell m ≤ pixel_distance cell mj ∧
        (j < get_closest_index refs cell → pixel_distance cell m < pixel_distance cell mj) := by
  unfold get_closest_index
  rcases closest_loop_spec cell refs 0 0 ((cell.cols : Int) * (cell.rows : Int) * 255 * 3)
    with ⟨hr, hall⟩ | ⟨k, m, hk, hr, _, hmin⟩
  · obtain ⟨m0, tl, rfl⟩ := List.exists_cons_of_ne_nil hne
    refine ⟨m0, by rw [hr]; simp, ?_⟩
    intro j mj hj
    rw [hr]
    refine ⟨?_, fun h => absurd h (by omega)⟩
    have h1 := hall j mj hj
    have h2 := cell_distance_le cell m0
    rw [← cell_distance_eq_pixel_distance, ← cell_distance_eq_pixel_distance]
    exact le_trans h2 h1
  · refine ⟨m, by rw [hr, Nat.zero_add]; exact hk, ?_⟩
    intro j mj hj
    rw [hr, Nat.zero_add, ← cell_distance_eq_pixel_distance, ← cell_distance_eq_pixel_distance]
    exact hmin j mj hj

theorem resize_fold (P : Params) (interp : Mat → Nat → Nat → Nat → Nat → Vec3b)
    {α : Type} (F : α → Mat) :
    ∀ (l : List α) (g : Globals),
      l.foldl (fun g k => resize_keyframe P interp g (F k)) g =
        { g with
          ref_keyframes := g.ref_keyframes ++
            l.map (fun k => resize interp (F k) g.X_STEP g.Y_STEP)
          render_keyframes := g.render_keyframes ++
            l.map (fun k => resize interp (F k) (g.X_STEP * P.SCALE) (g.Y_STEP * P.SCALE)) } := by
  intro l
  induction l with
  | nil => intro g; simp
  | cons k l ih =>
    intro g
    rw [List.foldl_cons, ih]
    simp [resize_keyframe]

theorem resize_keyframes_cons (P : Params) (interp : Mat → Nat → Nat → Nat → Nat → Vec3b)
    (g : Globals) (kf : Mat) (rest : List Mat) :
    resize_keyframes P interp g (kf :: rest) =
      { X_STEP := (set_steps P g kf).X_STEP
        Y_STEP := (set_steps P g kf).Y_STEP
        ref_keyframes := g.ref_keyframes ++ (kf :: rest).map (fun _ =>
          resize interp kf (set_steps P g kf).X_STEP (set_steps P g kf).Y_STEP)
        render_keyframes := g.render_keyframes ++ (kf :: rest).map (fun _ =>
          resize interp kf ((set_steps P g kf).X_STEP * P.SCALE)
            ((set_steps P g kf).Y_STEP * P.SCALE)) } := by
  simp only [resize_keyframes]
  rw [resize_fold P interp (fun _ => kf)]
  rfl

theorem resize_keyframes_files_cons (P : Params)
    (interp : Mat → Nat → Nat → Nat → Nat → Vec3b) (get_frame_at : String → Mat)
    (g : Globals) (f0 : String) (rest : List String) :
    resize_keyframes_files P interp get_frame_at g (f0 :: rest) =
      { X_STEP := (set_steps P g (get_frame_at f0)).X_STEP
        Y_STEP := (set_steps P g (get_frame_at f0)).Y_STEP
        ref_keyframes := g.ref_keyframes ++ (f0 :: rest).map (fun f =>
          resize interp (get_frame_at f) (set_steps P g (get_frame_at f0)).X_STEP
            (set_steps P g (get_frame_at f0)).Y_STEP)
        render_keyframes := g.render_keyframes ++ (f0 :: rest).map (fun f =>
          resize interp (get_frame_at f)
            ((set_steps P g (get_frame_at f0)).X_STEP * P.SCALE)
            ((set_steps P g (get_frame_at f0)).Y_STEP * P.SCALE)) } := by
  simp only [resize_keyframes_files]
  rw [resize_fold P interp get_frame_at]
  rfl

theorem set_steps_X (P : Params) (g : Globals) (kf : Mat) :
    (set_steps P g kf).X_STEP = ⌈(kf.cols : ℚ) / (P.RESOLUTION : ℚ)⌉ := by
  simp only [set_steps]
  congr 1
  ring

theorem set_steps_Y (P : Params) (g : Globals) (kf : Mat) :
    (set_steps P g kf).Y_STEP = ⌈(kf.rows : ℚ) / (P.RESOLUTION : ℚ)⌉ := by
  simp only [set_steps]
  congr 1
  ring

theorem ceil_div_nonneg (a b : Nat) : 0 ≤ ⌈(a : ℚ) / (b : ℚ)⌉ :=
  Int.ceil_nonneg (div_nonneg (Nat.cast_nonneg a) (Nat.cast_nonneg b))

theorem well_sized_of_maps (P : Params) (interp : Mat → Nat → Nat → Nat → Nat → Vec3b)
    {α : Type} (F : α → Mat) (l : List α) (cols rows : Nat) :
    Globals.well_sized P
      { X_STEP := ⌈(cols : ℚ) / (P.RESOLUTION : ℚ)⌉
        Y_STEP := ⌈(rows : ℚ) / (P.RESOLUTION : ℚ)⌉
        ref_keyframes := l.map (fun k => resize interp (F k)
          ⌈(cols : ℚ) / (P.RESOLUTION : ℚ)⌉ ⌈(rows : ℚ) / (P.RESOLUTION : ℚ)⌉)
        render_keyframes := l.map (fun k => resize interp (F k)
          (⌈(cols : ℚ) / (P.RESOLUTION : ℚ)⌉ * P.SCALE)
          (⌈(rows : ℚ) / (P.RESOLUTION : ℚ)⌉ * P.SCALE)) }
      cols rows l.length := by
  have hx := ceil_div_nonneg cols P.RESOLUTION
  have hy := ceil_div_nonneg rows P.RESOLUTION
  have hs : (0 : Int) ≤ (P.SCALE : Int) := Int.natCast_nonneg _
  refine ⟨rfl, rfl, by simp, by simp, ?_⟩
  intro i hi
  refine ⟨_, _, by simp only [List.getElem?_map, List.getElem?_eq_getElem hi]; rfl,
    by simp only [List.getElem?_map, List.getElem?_eq_getElem hi]; rfl, ?_⟩
  simp only [resize]
  have hxs := mul_nonneg hx hs
  have hys := mul_nonneg hy hs
  refine ⟨Int.toNat_of_nonneg hx, Int.toNat_of_nonneg hy, Int.toNat_of_nonneg hxs,
    Int.toNat_of_nonneg hys, ?_, ?_⟩
  · zify
    rw [Int.toNat_of_nonneg hxs, Int.toNat_of_nonneg hx]
  · zify
    rw [Int.toNat_of_nonneg hys, Int.toNat_of_nonneg hy]

/-- Claim C8, evaluated at the failing input: for the keyframes
`[1x1 black, 1x1 white]` both bank entries built by `resize_keyframes` are
resizes of the black keyframe 0, for every interpolation; with nearest-sample
interpolation entry 1 has a black pixel where the resize of keyframe 1 is
white. -/
theorem resize_keyframes_repeats_first :
    (∀ interp : Mat → Nat → Nat → Nat → Nat → Vec3b,
      (resize_keyframes Params.program interp Globals.init
          [solid 1 1 ⟨0, 0, 0⟩, solid 1 1 ⟨255, 255, 255⟩]).ref_keyframes
        = [resize interp (solid 1 1 ⟨0, 0, 0⟩) 1 1, resize interp (solid 1 1 ⟨0, 0, 0⟩) 1 1] ∧
      (resize_keyframes Params.program interp Globals.init
          [solid 1 1 ⟨0, 0, 0⟩, solid 1 1 ⟨255, 255, 255⟩]).render_keyframes
        = [resize interp (solid 1 1 ⟨0, 0, 0⟩) 2 2, resize interp (solid 1 1 ⟨0, 0, 0⟩) 2 2]) ∧
    ((resize_keyframes Params.program nearest Globals.init
        [solid 1 1 ⟨0, 0, 0⟩, solid 1 1 ⟨255, 255, 255⟩]).ref_keyframes.map
          (fun m => m.px 0 0) = [⟨0, 0, 0⟩, ⟨0, 0, 0⟩]) ∧
    (resize nearest (solid 1 1 ⟨255, 255, 255⟩) 1 1).px 0 0 = ⟨255, 255, 255⟩ := by
  have hx : ∀ g : Globals,
      (set_steps Params.program g (solid 1 1 ⟨0, 0, 0⟩)).X_STEP = 1 := by
    intro g
    rw [set_steps_X, Int.ceil_eq_iff]
    simp only [solid, Params.program]
    norm_num
  have hy : ∀ g : Globals,
      (set_steps Params.program g (solid 1 1 ⟨0, 0, 0⟩)).Y_STEP = 1 := by
    intro g
    rw [set_steps_Y, Int.ceil_eq_iff]
    simp only [solid, Params.program]
    norm_num
  refine ⟨fun interp => ⟨?_, ?_⟩, ?_, rfl⟩
  · rw [resize_keyframes_cons, hx, hy]; rfl
  · rw [resize_keyframes_cons, hx, hy]; rfl
  · rw [resize_keyframes_cons, hx, hy]; rfl

/-- Claim C9: after the bank is built from a non-empty keyframe list (in memory, or
read from a non-empty list of file names) whose first keyframe is `cols` x
`rows`, `X_STEP` and `Y_STEP` are the exact ceilings of `cols / RESOLUTION`
and `rows / RESOLUTION`, the two bank vectors have the length of the list, and
at every valid index the reference image is exactly `X_STEP` x `Y_STEP` and
the render image exactly `X_STEP * SCALE` x `Y_STEP * SCALE`. -/
theorem bank_well_sized (P : Params) (interp : Mat → Nat → Nat → Nat → Nat → Vec3b)
    (get_frame_at : String → Mat) (keyframes : List Mat) (filenames : List String)
    (kf0 : Mat) (f0 : String)
    (hk : keyframes.head? = some kf0) (hf : filenames.head? = some f0) :
    Globals.well_sized P (resize_keyframes P interp Globals.init keyframes)
      kf0.cols kf0.rows keyframes.length ∧
    Globals.well_sized P (resize_keyframes_files P interp get_frame_at Globals.init filenames)
      (get_frame_at f0).cols (get_frame_at f0).rows filenames.length := by
  constructor
  · match keyframes, hk with
    | kf :: rest, hk =>
      simp only [List.head?_cons, Option.some.injEq] at hk
      subst hk
      rw [resize_keyframes_cons, set_steps_X, set_steps_Y]
      simpa [Globals.init] using
        well_sized_of_maps P interp (fun _ : Mat => kf) (kf :: rest) kf.cols kf.rows
  · match filenames, hf with
    | f :: rest, hf =>
      simp only [List.head?_cons, Option.some.injEq] at hf
      subst hf
      rw [resize_keyframes_files_cons, set_steps_X, set_steps_Y]
      simpa [Globals.init] using
        well_sized_of_maps P interp get_frame_at (f :: rest)
          (get_frame_at f).cols (get_frame_at f).rows

theorem bank_well_sized_witness :
    [solid 36 54 ⟨0, 0, 0⟩, solid 36 54 ⟨9, 9, 9⟩].head? = some (solid 36 54 ⟨0, 0, 0⟩) ∧
    ["0000.png", "0001.png"].head? = some "0000.png" ∧
    Globals.well_sized Params.program
      (resize_keyframes Params.program nearest Globals.init
        [solid 36 54 ⟨0, 0, 0⟩, solid 36 54 ⟨9, 9, 9⟩])
      (solid 36 54 ⟨0, 0, 0⟩).cols (solid 36 54 ⟨0, 0, 0⟩).rows
      [solid 36 54 ⟨0, 0, 0⟩, solid 36 54 ⟨9, 9, 9⟩].length ∧
    Globals.well_sized Params.program
      (resize_keyframes_files Params.program nearest (fun _ => solid 36 54 ⟨0, 0, 0⟩)
        Globals.init ["0000.png", "0001.png"])
      ((fun _ : String => solid 36 54 ⟨0, 0, 0⟩) "0000.png").cols
      ((fun _ : String => solid 36 54 ⟨0, 0, 0⟩) "0000.png").rows
      ["0000.png", "0001.png"].length :=
  ⟨rfl, rfl,
    bank_well_sized Params.program nearest (fun _ => solid 36 54 ⟨0, 0, 0⟩)
      [solid 36 54 ⟨0, 0, 0⟩, solid 36 54 ⟨9, 9, 9⟩] ["0000.png", "0001.png"]
      (solid 36 54 ⟨0, 0, 0⟩) "0000.png" rfl rfl⟩

/-! ## The grid of destination rectangles -/

theorem cround_natCast (n : Nat) : cround (n : ℚ) = n := by
  unfold cround
  rw [if_pos (Nat.cast_nonneg n), Int.floor_eq_iff]
  constructor
  · push_cast; linarith
  · push_cast; linarith

theorem clamp_start_of_dvd (P : Params) (x k : Nat) (hR : 1 ≤ P.RESOLUTION) :
    clamp_start P x (P.RESOLUTION * k) = ((x * k : Nat) : Int) := by
  unfold clamp_start
  have hne : (P.RESOLUTION : ℚ) ≠ 0 := by
    have : (0 : ℚ) < (P.RESOLUTION : ℚ) := by exact_mod_cast hR
    exact ne_of_gt this
  have h : (x : ℚ) / (P.RESOLUTION : ℚ) * ((P.RESOLUTION * k : Nat) : ℚ) = ((x * k : Nat) : ℚ) := by
    push_cast
    field_simp
    ring
  rw [h, cround_natCast]

theorem ceil_of_dvd (R k : Nat) (hR : 1 ≤ R) : ⌈((R * k : Nat) : ℚ) / (R : ℚ)⌉ = (k : Int) := by
  have hne : (R : ℚ) ≠ 0 := by
    have : (0 : ℚ) < (R : ℚ) := by exact_mod_cast hR
    exact ne_of_gt this
  have h : ((R * k : Nat) : ℚ) / (R : ℚ) = ((k : Int) : ℚ) := by
    push_cast
    field_simp
  rw [h, Int.ceil_intCast]

theorem min_grid (R x w : Nat) (hx : x < R) :
    min (w : Int) (((R * w : Nat) : Int) - ((x * w : Nat) : Int)) = (w : Int) := by
  have h : (x + 1) * w ≤ R * w := Nat.mul_le_mul_right w hx
  apply min_eq_left
  zify at h
  push_cast
  linarith

theorem dst_rect_grid (P : Params) (g : Globals) (frame render : Mat) (x y k l : Nat)
    (hR : 1 ≤ P.RESOLUTION) (hc : frame.cols = P.RESOLUTION * k)
    (hr : frame.rows = P.RESOLUTION * l) (hX : g.X_STEP = k) (hY : g.Y_STEP = l)
    (hrc : render.cols = frame.cols * P.SCALE) (hrr : render.rows = frame.rows * P.SCALE)
    (hx : x < P.RESOLUTION) (hy : y < P.RESOLUTION) :
    dst_rect P g frame render x y =
      ⟨((x * (k * P.SCALE) : Nat) : Int), ((y * (l * P.SCALE) : Nat) : Int),
        ((k * P.SCALE : Nat) : Int), ((l * P.SCALE : Nat) : Int)⟩ := by
  unfold dst_rect
  simp only [hc, hr, hX, hY, hrc, hrr, clamp_start_of_dvd P _ _ hR]
  have h1 := min_grid P.RESOLUTION x (k * P.SCALE) hx
  have h2 := min_grid P.RESOLUTION y (l * P.SCALE) hy
  have e1 : ((k : Int) * (P.SCALE : Int)) = ((k * P.SCALE : Nat) : Int) := by push_cast; ring
  have e2 : ((P.RESOLUTION * k * P.SCALE : Nat) : Int) - ((x * k : Nat) : Int) * (P.SCALE : Int)
      = ((P.RESOLUTION * (k * P.SCALE) : Nat) : Int) - ((x * (k * P.SCALE) : Nat) : Int) := by
    push_cast; ring
  have e3 : ((l : Int) * (P.SCALE : Int)) = ((l * P.SCALE : Nat) : Int) := by push_cast; ring
  have e4 : ((P.RESOLUTION * l * P.SCALE : Nat) : Int) - ((y * l : Nat) : Int) * (P.SCALE : Int)
      = ((P.RESOLUTION * (l * P.SCALE) : Nat) : Int) - ((y * (l * P.SCALE) : Nat) : Int) := by
    push_cast; ring
  rw [e1, e2, e3, e4, h1, h2]
  congr 1 <;> (push_cast; ring)

theorem grid_cover (R w : Nat) (p : Int) (h0 : 0 ≤ p) (h1 : p < ((R * w : Nat) : Int)) :
    ∃ x : Nat, x < R ∧ ((x * w : Nat) : Int) ≤ p ∧ p < ((x * w : Nat) : Int) + (w : Int) := by
  have hw : 0 < (w : Int) := by
    rcases Nat.eq_zero_or_pos w with h | h
    · subst h; simp at h1; omega
    · exact_mod_cast h
  have hq : 0 ≤ p / (w : Int) := Int.ediv_nonneg h0 (le_of_lt hw)
  have hle : p / (w : Int) * (w : Int) ≤ p := Int.ediv_mul_le p (ne_of_gt hw)
  have hlt : p < (p / (w : Int) + 1) * (w : Int) := Int.lt_ediv_add_one_mul_self p hw
  have hR : p / (w : Int) < (R : Int) := by
    apply Int.ediv_lt_of_lt_mul hw
    push_cast at h1
    exact h1
  refine ⟨(p / (w : Int)).toNat, ?_, ?_, ?_⟩
  · have := Int.toNat_of_nonneg hq
    omega
  · push_cast
    rw [Int.toNat_of_nonneg hq]
    exact hle
  · push_cast
    rw [Int.toNat_of_nonneg hq]
    linarith

theorem grid_unique (w x x2 : Nat) (p : Int)
    (h1 : ((x * w : Nat) : Int) ≤ p) (h2 : p < ((x * w : Nat) : Int) + (w : Int))
    (h3 : ((x2 * w : Nat) : Int) ≤ p) (h4 : p < ((x2 * w : Nat) : Int) + (w : Int)) :
    x = x2 := by
  rcases Nat.lt_trichotomy x x2 with h | h | h
  · exfalso
    have hm : (x + 1) * w ≤ x2 * w := Nat.mul_le_mul_right w h
    zify at hm
    push_cast at h2 h3
    linarith
  · exact h
  · exfalso
    have hm : (x2 + 1) * w ≤ x * w := Nat.mul_le_mul_right w h
    zify at hm
    push_cast at h1 h4
    linarith

/-- Claim C10: when `RESOLUTION` divides the frame's columns and rows and the bank
was built from a keyframe of the frame's dimensions, every destination
rectangle of `render_frame` has size `cols / RESOLUTION * SCALE` by
`rows / RESOLUTION * SCALE`, every pixel of the `cols * SCALE` by
`rows * SCALE` canvas lies in the rectangle of some grid position, and no pixel
lies in the rectangles of two different grid positions. -/
theorem dst_rects_tile_canvas (P : Params) (interp : Mat → Nat → Nat → Nat → Nat → Vec3b)
    (frame kf : Mat) (rest : List Mat) (render : Mat)
    (hR : 1 ≤ P.RESOLUTION) (hc : P.RESOLUTION ∣ frame.cols) (hr : P.RESOLUTION ∣ frame.rows)
    (hkc : kf.cols = frame.cols) (hkr : kf.rows = frame.rows)
    (hrc : render.cols = frame.cols * P.SCALE) (hrr : render.rows = frame.rows * P.SCALE) :
    (∀ x y : Nat, x < P.RESOLUTION → y < P.RESOLUTION →
      dst_rect P (resize_keyframes P interp Globals.init (kf :: rest)) frame render x y =
        ⟨((x * (frame.cols / P.RESOLUTION * P.SCALE) : Nat) : Int),
          ((y * (frame.rows / P.RESOLUTION * P.SCALE) : Nat) : Int),
          ((frame.cols / P.RESOLUTION * P.SCALE : Nat) : Int),
          ((frame.rows / P.RESOLUTION * P.SCALE : Nat) : Int)⟩) ∧
    (∀ px py : Int, 0 ≤ px → px < (render.cols : Int) → 0 ≤ py → py < (render.rows : Int) →
      ∃ x y : Nat, x < P.RESOLUTION ∧ y < P.RESOLUTION ∧
        (dst_rect P (resize_keyframes P interp Globals.init (kf :: rest))
          frame render x y).contains px py) ∧
    (∀ (x y x2 y2 : Nat) (px py : Int), x < P.RESOLUTION → y < P.RESOLUTION →
      x2 < P.RESOLUTION → y2 < P.RESOLUTION →
      (dst_rect P (resize_keyframes P interp Globals.init (kf :: rest))
        frame render x y).contains px py →
      (dst_rect P (resize_keyframes P interp Globals.init (kf :: rest))
        frame render x2 y2).contains px py →
      x = x2 ∧ y = y2) := by
  obtain ⟨k, hk⟩ := hc
  obtain ⟨l, hl⟩ := hr
  have hRpos : 0 < P.RESOLUTION := hR
  have hdk : frame.cols / P.RESOLUTION = k := by rw [hk]; exact Nat.mul_div_cancel_left k hRpos
  have hdl : frame.rows / P.RESOLUTION = l := by rw [hl]; exact Nat.mul_div_cancel_left l hRpos
  have hX : (resize_keyframes P interp Globals.init (kf :: rest)).X_STEP = k := by
    rw [resize_keyframes_cons, set_steps_X, hkc, hk]
    exact ceil_of_dvd P.RESOLUTION k hR
  have hY : (resize_keyframes P interp Globals.init (kf :: rest)).Y_STEP = l := by
    rw [resize_keyframes_cons, set_steps_Y, hkr, hl]
    exact ceil_of_dvd P.RESOLUTION l hR
  have hrect : ∀ x y : Nat, x < P.RESOLUTION → y < P.RESOLUTION →
      dst_rect P (resize_keyframes P interp Globals.init (kf :: rest)) frame render x y =
        ⟨((x * (k * P.SCALE) : Nat) : Int), ((y * (l * P.SCALE) : Nat) : Int),
          ((k * P.SCALE : Nat) : Int), ((l * P.SCALE : Nat) : Int)⟩ :=
    fun x y hx hy => dst_rect_grid P _ frame render x y k l hR hk hl hX hY hrc hrr hx hy
  refine ⟨?_, ?_, ?_⟩
  · intro x y hx hy
    rw [hdk, hdl]
    exact hrect x y hx hy
  · intro px py hx0 hx1 hy0 hy1
    have hx1' : px < ((P.RESOLUTION * (k * P.SCALE) : Nat) : Int) := by
      rw [hrc, hk] at hx1
      rw [← Nat.mul_assoc]
      exact hx1
    have hy1' : py < ((P.RESOLUTION * (l * P.SCALE) : Nat) : Int) := by
      rw [hrr, hl] at hy1
      rw [← Nat.mul_assoc]
      exact hy1
    obtain ⟨x, hx, hxa, hxb⟩ := grid_cover P.RESOLUTION (k * P.SCALE) px hx0 hx1'
    obtain ⟨y, hy, hya, hyb⟩ := grid_cover P.RESOLUTION (l * P.SCALE) py hy0 hy1'
    refine ⟨x, y, hx, hy, ?_⟩
    rw [hrect x y hx hy]
    exact ⟨hxa, hxb, hya, hyb⟩
  · intro x y x2 y2 px py hx hy hx2 hy2 h1 h2
    rw [hrect x y hx hy] at h1
    rw [hrect x2 y2 hx2 hy2] at h2
    obtain ⟨a1, a2, a3, a4⟩ := h1
    obtain ⟨b1, b2, b3, b4⟩ := h2
    exact ⟨grid_unique (k * P.SCALE) x x2 px a1 a2 b1 b2,
      grid_unique (l * P.SCALE) y y2 py a3 a4 b3 b4⟩

theorem dst_rects_tile_canvas_witness :
    (1 ≤ (Params.mk 2 2).RESOLUTION ∧ (Params.mk 2 2).RESOLUTION ∣ (solid 4 4 ⟨7, 7, 7⟩).cols ∧
      (Params.mk 2 2).RESOLUTION ∣ (solid 4 4 ⟨7, 7, 7⟩).rows ∧
      (Mat.zeros 8 8).cols = (solid 4 4 ⟨7, 7, 7⟩).cols * (Params.mk 2 2).SCALE ∧
      (Mat.zeros 8 8).rows = (solid 4 4 ⟨7, 7, 7⟩).rows * (Params.mk 2 2).SCALE) ∧
    (∀ x y : Nat, x < (Params.mk 2 2).RESOLUTION → y < (Params.mk 2 2).RESOLUTION →
      dst_rect (Params.mk 2 2) (resize_keyframes (Params.mk 2 2) nearest Globals.init ((solid 4 4 ⟨0, 0, 0⟩) :: [])) (solid 4 4 ⟨7, 7, 7⟩) (Mat.zeros 8 8) x y =
        ⟨((x * ((solid 4 4 ⟨7, 7, 7⟩).cols / (Params.mk 2 2).RESOLUTION * (Params.mk 2 2).SCALE) : Nat) : Int),
          ((y * ((solid 4 4 ⟨7, 7, 7⟩).rows / (Params.mk 2 2).RESOLUTION * (Params.mk 2 2).SCALE) : Nat) : Int),
          (((solid 4 4 ⟨7, 7, 7⟩).cols / (Params.mk 2 2).RESOLUTION * (Params.mk 2 2).SCALE : Nat) : Int),
          (((solid 4 4 ⟨7, 7, 7⟩).rows / (Params.mk 2 2).RESOLUTION * (Params.mk 2 2).SCALE : Nat) : Int)⟩) ∧
    (∀ px py : Int, 0 ≤ px → px < ((Mat.zeros 8 8).cols : Int) → 0 ≤ py → py < ((Mat.zeros 8 8).rows : Int) →
      ∃ x y : Nat, x < (Params.mk 2 2).RESOLUTION ∧ y < (Params.mk 2 2).RESOLUTION ∧
        (dst_rect (Params.mk 2 2) (resize_keyframes (Params.mk 2 2) nearest Globals.init ((solid 4 4 ⟨0, 0, 0⟩) :: []))
          (solid 4 4 ⟨7, 7, 7⟩) (Mat.zeros 8 8) x y).contains px py) ∧
    (∀ (x y x2 y2 : Nat) (px py : Int), x < (Params.mk 2 2).RESOLUTION → y < (Params.mk 2 2).RESOLUTION →
      x2 < (Params.mk 2 2).RESOLUTION → y2 < (Params.mk 2 2).RESOLUTION →
      (dst_rect (Params.mk 2 2) (resize_keyframes (Params.mk 2 2) nearest Globals.init ((solid 4 4 ⟨0, 0, 0⟩) :: []))
        (solid 4 4 ⟨7, 7, 7⟩) (Mat.zeros 8 8) x y).contains px py →
      (dst_rect (Params.mk 2 2) (resize_keyframes (Params.mk 2 2) nearest Globals.init ((solid 4 4 ⟨0, 0, 0⟩) :: []))
        (solid 4 4 ⟨7, 7, 7⟩) (Mat.zeros 8 8) x2 y2).contains px py →
      x = x2 ∧ y = y2) :=
  ⟨⟨by decide, by decide, by decide, rfl, rfl⟩,
    dst_rects_tile_canvas (Params.mk 2 2) nearest (solid 4 4 ⟨7, 7, 7⟩) (solid 4 4 ⟨0, 0, 0⟩) []
      (Mat.zeros 8 8) (by decide) (by decide) (by decide) rfl rfl rfl rfl⟩

/-- Claim C7, refuted as stated: for an all-black and an all-white 10x10 image the
exact value of `compare_frames` is not 765. -/
theorem compare_black_white_ne_765 :
    compare_frames (gray 10 10 0) (gray 10 10 255) ≠ 765 := by
  have hd : gray_delta 0 255 = 765 := by decide
  rw [compare_gray, hd]; norm_num

/-- Claim C7, amended: for an all-black and an all-white 10x10 image the exact
value of `compare_frames` is 255 (the sampled sum 900 * 765 times the weight
1 / 2700), which exceeds the threshold 24. -/
theorem compare_black_white_eq_255 :
    sample_distance (gray 10 10 0) (gray 10 10 255) = 900 * 765 ∧
    SAMPLE_WEIGHT = 1 / 2700 ∧
    compare_frames (gray 10 10 0) (gray 10 10 255) = 255 ∧
    compare_frames (gray 10 10 0) (gray 10 10 255) > THRESHOLD := by
  have hd : gray_delta 0 255 = 765 := by decide
  refine ⟨?_, ?_, ?_, ?_⟩
  · rw [sample_distance_gray, hd]
  · unfold SAMPLE_WEIGHT SAMPLING_DENSITY; norm_num
  · rw [compare_gray, hd]; norm_num
  · rw [compare_gray, hd]; unfold THRESHOLD; norm_num

/-! ## Failure and size preconditions of the metric and the scan -/

theorem pick_keyframes_ne_nil (frames keyframes : List Mat)
    (h : pick_keyframes frames = .ok keyframes) : keyframes ≠ [] := by
  cases frames with
  | nil => simp [pick_keyframes, pick_keyframes_at] at h
  | cons f0 rest =>
    rw [pick_keyframes_cons, pick_loop_eq_select_rest] at h
    injection h with h
    rw [← h]
    simp

/-- Claim C14: `pick_keyframes` on an empty frame sequence fails (with the
`std::out_of_range` of `frame_pool.at(0)`), and on no input does it return an
empty keyframe list. -/
theorem pick_keyframes_empty_fails :
    pick_keyframes [] = .error .out_of_range ∧
    ∀ frames : List Mat, pick_keyframes frames ≠ .ok [] := by
  refine ⟨rfl, ?_⟩
  intro frames h
  exact pick_keyframes_ne_nil frames [] h rfl

/-- Claim C15: for all images whose row counts differ or whose column counts
differ, `compare_frames` returns 0. -/
theorem compare_frames_size_mismatch (a b : Mat) (h : a.rows ≠ b.rows ∨ a.cols ≠ b.cols) :
    compare_frames a b = 0 := by
  unfold compare_frames
  rcases h with h | h
  · rw [if_pos h]
  · split_ifs <;> rfl

theorem compare_frames_size_mismatch_witness :
    ((gray 10 10 0).rows ≠ (gray 10 12 255).rows ∨ (gray 10 10 0).cols ≠ (gray 10 12 255).cols) ∧
    compare_frames (gray 10 10 0) (gray 10 12 255) = 0 :=
  ⟨Or.inr (by decide), compare_frames_size_mismatch _ _ (Or.inr (by decide))⟩

theorem pick_files_loop_images (T : ℚ) (get_frame_at : String → Mat) :
    ∀ (names : List String) (last : Mat) (counter : Nat) (written : List (Nat × Mat)),
      (pick_files_loop T get_frame_at names last counter written).map Prod.snd
        = written.map Prod.snd ++ select_rest T last (names.map get_frame_at) := by
  intro names
  induction names with
  | nil => intro last counter written; simp [pick_files_loop, select_rest]
  | cons n names ih =>
    intro last counter written
    simp only [pick_files_loop, List.map_cons, select_rest]
    split_ifs with hc
    · rw [ih]; simp
    · rw [ih]

theorem pick_files_loop_append (T : ℚ) (get_frame_at : String → Mat) :
    ∀ (names : List String) (last : Mat) (counter : Nat) (written : List (Nat × Mat)),
      ∃ more, pick_files_loop T get_frame_at names last counter written = written ++ more := by
  intro names
  induction names with
  | nil => intro last counter written; exact ⟨[], by simp [pick_files_loop]⟩
  | cons n names ih =>
    intro last counter written
    simp only [pick_files_loop]
    split_ifs with hc
    · obtain ⟨more, hm⟩ := ih (get_frame_at n) (counter + 1)
        (written ++ [(counter + 1, get_frame_at n)])
      exact ⟨(counter + 1, get_frame_at n) :: more, by rw [hm]; simp⟩
    · exact ih last counter written

theorem select_rest_skip_self (f0 : Mat) (rest : List Mat) :
    select_rest THRESHOLD f0 (f0 :: rest) = select_rest THRESHOLD f0 rest := by
  rw [select_rest, compare_frames_self, if_neg threshold_nonneg]

/-- Claim C17: on every list of at least 363 frame files the two selection routines
disagree: `pick_keyframes` over file names records frame 362 as its second
keyframe and records one keyframe more than `pick_keyframes` over the same
frames in memory selects. -/
theorem pick_keyframes_variants_differ (get_frame_at : String → Mat) (filenames : List String)
    (h : 363 ≤ filenames.length) :
    ∃ (written : List (Nat × Mat)) (keyframes : List Mat) (filename362 : String),
      filenames[362]? = some filename362 ∧
      pick_keyframes_files get_frame_at filenames = .ok written ∧
      pick_keyframes (filenames.map get_frame_at) = .ok keyframes ∧
      written[1]? = some (1, get_frame_at filename362) ∧
      (written.map Prod.snd).length = keyframes.length + 1 ∧
      written.map Prod.snd ≠ keyframes := by
  obtain ⟨n0, rest, rfl⟩ := List.exists_cons_of_ne_nil
    (List.ne_nil_of_length_pos (by omega : 0 < filenames.length))
  have h362 : (n0 :: rest)[362]? = some ((n0 :: rest)[362]) := List.getElem?_eq_getElem (by omega)
  have himg := pick_files_loop_images THRESHOLD get_frame_at (n0 :: rest) (get_frame_at n0) 1
    [(0, get_frame_at n0), (1, get_frame_at ((n0 :: rest)[362]))]
  have hmap : (n0 :: rest).map get_frame_at = get_frame_at n0 :: rest.map get_frame_at := rfl
  rw [hmap, select_rest_skip_self] at himg
  have hlen : ((pick_files_loop THRESHOLD get_frame_at (n0 :: rest) (get_frame_at n0) 1
      [(0, get_frame_at n0), (1, get_frame_at ((n0 :: rest)[362]))]).map Prod.snd).length
      = (pick_loop THRESHOLD (rest.map get_frame_at) (get_frame_at n0) [get_frame_at n0]).length
        + 1 := by
    rw [himg, pick_loop_eq_select_rest]
    simp only [List.map_cons, List.map_nil, List.length_append, List.length_cons, List.length_nil]
    omega
  refine ⟨_, _, (n0 :: rest)[362], h362, ?_, ?_, ?_, hlen, ?_⟩
  · simp only [pick_keyframes_files, List.get?_eq_getElem?, h362, List.getElem?_cons_zero]
  · rw [List.map_cons, pick_keyframes_cons]
  · obtain ⟨more, hmore⟩ := pick_files_loop_append THRESHOLD get_frame_at (n0 :: rest)
      (get_frame_at n0) 1 [(0, get_frame_at n0), (1, get_frame_at ((n0 :: rest)[362]))]
    rw [hmore]
    simp
  · intro heq
    rw [heq] at hlen
    omega

theorem pick_keyframes_variants_differ_witness :
    363 ≤ (List.replicate 363 "frame.png").length ∧
    ∃ (written : List (Nat × Mat)) (keyframes : List Mat) (filename362 : String),
      (List.replicate 363 "frame.png")[362]? = some filename362 ∧
      pick_keyframes_files (fun _ => gray 10 10 0) (List.replicate 363 "frame.png")
        = .ok written ∧
      pick_keyframes ((List.replicate 363 "frame.png").map (fun _ => gray 10 10 0))
        = .ok keyframes ∧
      written[1]? = some (1, (fun _ : String => gray 10 10 0) filename362) ∧
      (written.map Prod.snd).length = keyframes.length + 1 ∧
      written.map Prod.snd ≠ keyframes :=
  ⟨(List.length_replicate 363 "frame.png").ge,
    pick_keyframes_variants_differ (fun _ => gray 10 10 0) (List.replicate 363 "frame.png")
      (List.length_replicate 363 "frame.png").ge⟩

/-! ## Geometry of the grid cells for arbitrary dimensions -/

theorem clamp_arg_nonneg (P : Params) (x n : Nat) :
    (0 : ℚ) ≤ (x : ℚ) / (P.RESOLUTION : ℚ) * (n : ℚ) :=
  mul_nonneg (div_nonneg (Nat.cast_nonneg x) (Nat.cast_nonneg _)) (Nat.cast_nonneg n)

theorem clamp_start_eq_floor (P : Params) (x n : Nat) :
    clamp_start P x n = ⌊(x : ℚ) / (P.RESOLUTION : ℚ) * (n : ℚ) + 1 / 2⌋ := by
  unfold clamp_start cround
  rw [if_pos (clamp_arg_nonneg P x n)]

theorem clamp_start_nonneg (P : Params) (x n : Nat) : 0 ≤ clamp_start P x n := by
  rw [clamp_start_eq_floor, Int.floor_nonneg]
  have := clamp_arg_nonneg P x n
  linarith

theorem clamp_start_le (P : Params) (x n : Nat) (hx : x < P.RESOLUTION) :
    clamp_start P x n ≤ (n : Int) := by
  have hRpos : (0 : ℚ) < (P.RESOLUTION : ℚ) := by
    have : 0 < P.RESOLUTION := by omega
    exact_mod_cast this
  have hle : (x : ℚ) / (P.RESOLUTION : ℚ) ≤ 1 := by
    rw [div_le_one hRpos]
    exact_mod_cast le_of_lt hx
  have hn : (0 : ℚ) ≤ (n : ℚ) := Nat.cast_nonneg n
  have hq : (x : ℚ) / (P.RESOLUTION : ℚ) * (n : ℚ) ≤ (n : ℚ) := by
    calc (x : ℚ) / (P.RESOLUTION : ℚ) * (n : ℚ) ≤ 1 * (n : ℚ) :=
          mul_le_mul_of_nonneg_right hle hn
      _ = (n : ℚ) := one_mul _
  rw [clamp_start_eq_floor]
  have : ⌊(x : ℚ) / (P.RESOLUTION : ℚ) * (n : ℚ) + 1 / 2⌋ < (n : Int) + 1 := by
    rw [Int.floor_lt]
    push_cast
    linarith
  omega

theorem cell_rect_bounds (P : Params) (g : Globals) (frame : Mat) (x y : Nat)
    (hX : 0 ≤ g.X_STEP) (hY : 0 ≤ g.Y_STEP)
    (hx : x < P.RESOLUTION) (hy : y < P.RESOLUTION) :
    0 ≤ (cell_rect P g frame x y).x ∧ 0 ≤ (cell_rect P g frame x y).width ∧
    (cell_rect P g frame x y).x + (cell_rect P g frame x y).width ≤ (frame.cols : Int) ∧
    0 ≤ (cell_rect P g frame x y).y ∧ 0 ≤ (cell_rect P g frame x y).height ∧
    (cell_rect P g frame x y).y + (cell_rect P g frame x y).height ≤ (frame.rows : Int) := by
  have h1 := clamp_start_nonneg P x frame.cols
  have h2 := clamp_start_le P x frame.cols hx
  have h3 := clamp_start_nonneg P y frame.rows
  have h4 := clamp_start_le P y frame.rows hy
  simp only [cell_rect]
  refine ⟨h1, le_min hX (by omega), ?_, h3, le_min hY (by omega), ?_⟩
  · have := min_le_right g.X_STEP ((frame.cols : Int) - clamp_start P x frame.cols)
    omega
  · have := min_le_right g.Y_STEP ((frame.rows : Int) - clamp_start P y frame.rows)
    omega

theorem dst_rect_scaled (P : Params) (g : Globals) (frame render : Mat) (x y : Nat)
    (hrc : render.cols = frame.cols * P.SCALE) (hrr : render.rows = frame.rows * P.SCALE) :
    dst_rect P g frame render x y =
      ⟨(cell_rect P g frame x y).x * P.SCALE, (cell_rect P g frame x y).y * P.SCALE,
        (cell_rect P g frame x y).width * P.SCALE, (cell_rect P g frame x y).height * P.SCALE⟩ := by
  have hs : (0 : Int) ≤ (P.SCALE : Int) := Int.natCast_nonneg _
  simp only [dst_rect, cell_rect, hrc, hrr]
  rw [min_mul_of_nonneg _ _ hs, min_mul_of_nonneg _ _ hs]
  push_cast
  rw [sub_mul, sub_mul]

theorem roi_ok (m : Mat) (r : Rect)
    (h : 0 ≤ r.x ∧ 0 ≤ r.width ∧ r.x + r.width ≤ m.cols ∧
      0 ≤ r.y ∧ 0 ≤ r.height ∧ r.y + r.height ≤ m.rows) :
    m.roi r = .ok ⟨r.height.toNat, r.width.toNat,
      fun y x => m.px (r.y.toNat + y) (r.x.toNat + x)⟩ := by
  unfold Mat.roi
  rw [if_pos h]

/-- Claim C11: for every frame with at least one column and one row, all
`X_STEP, Y_STEP >= 0` and every grid position `(x, y)` with
`x, y < RESOLUTION`, the cell rectangle of `render_frame` (origin the rounded
`x / RESOLUTION * cols`, `y / RESOLUTION * rows`; size the minimum of the step
and the distance to the frame edge) lies inside the frame, so taking the
region of interest succeeds. -/
theorem cell_rect_inside_frame (P : Params) (g : Globals) (frame : Mat) (x y : Nat)
    (_hc : 1 ≤ frame.cols) (_hr : 1 ≤ frame.rows)
    (hX : 0 ≤ g.X_STEP) (hY : 0 ≤ g.Y_STEP)
    (hx : x < P.RESOLUTION) (hy : y < P.RESOLUTION) :
    cell_rect P g frame x y =
      ⟨cround ((x : ℚ) / (P.RESOLUTION : ℚ) * (frame.cols : ℚ)),
        cround ((y : ℚ) / (P.RESOLUTION : ℚ) * (frame.rows : ℚ)),
        min g.X_STEP ((frame.cols : Int)
          - cround ((x : ℚ) / (P.RESOLUTION : ℚ) * (frame.cols : ℚ))),
        min g.Y_STEP ((frame.rows : Int)
          - cround ((y : ℚ) / (P.RESOLUTION : ℚ) * (frame.rows : ℚ)))⟩ ∧
    (0 ≤ (cell_rect P g frame x y).x ∧ 0 ≤ (cell_rect P g frame x y).width ∧
      (cell_rect P g frame x y).x + (cell_rect P g frame x y).width ≤ (frame.cols : Int) ∧
      0 ≤ (cell_rect P g frame x y).y ∧ 0 ≤ (cell_rect P g frame x y).height ∧
      (cell_rect P g frame x y).y + (cell_rect P g frame x y).height ≤ (frame.rows : Int)) ∧
    ∃ frame_roi : Mat, frame.roi (cell_rect P g frame x y) = .ok frame_roi :=
  ⟨rfl, cell_rect_bounds P g frame x y hX hY hx hy,
    _, roi_ok frame _ (cell_rect_bounds P g frame x y hX hY hx hy)⟩

theorem cell_rect_inside_frame_witness :
    (1 ≤ (solid 10 10 ⟨0, 0, 0⟩).cols ∧ (0 : Int) ≤ (Globals.mk 1 1 [] []).X_STEP ∧
      17 < Params.program.RESOLUTION) ∧
    (0 ≤ (cell_rect Params.program (Globals.mk 1 1 [] []) (solid 10 10 ⟨0, 0, 0⟩) 17 17).x ∧
      0 ≤ (cell_rect Params.program (Globals.mk 1 1 [] []) (solid 10 10 ⟨0, 0, 0⟩) 17 17).width ∧
      (cell_rect Params.program (Globals.mk 1 1 [] []) (solid 10 10 ⟨0, 0, 0⟩) 17 17).x
        + (cell_rect Params.program (Globals.mk 1 1 [] []) (solid 10 10 ⟨0, 0, 0⟩) 17 17).width
        ≤ ((solid 10 10 ⟨0, 0, 0⟩).cols : Int) ∧
      0 ≤ (cell_rect Params.program (Globals.mk 1 1 [] []) (solid 10 10 ⟨0, 0, 0⟩) 17 17).y ∧
      0 ≤ (cell_rect Params.program (Globals.mk 1 1 [] []) (solid 10 10 ⟨0, 0, 0⟩) 17 17).height ∧
      (cell_rect Params.program (Globals.mk 1 1 [] []) (solid 10 10 ⟨0, 0, 0⟩) 17 17).y
        + (cell_rect Params.program (Globals.mk 1 1 [] []) (solid 10 10 ⟨0, 0, 0⟩) 17 17).height
        ≤ ((solid 10 10 ⟨0, 0, 0⟩).rows : Int)) :=
  ⟨⟨by decide, by decide, by decide⟩,
    (cell_rect_inside_frame Params.program (Globals.mk 1 1 [] []) (solid 10 10 ⟨0, 0, 0⟩) 17 17
      (by decide) (by decide) (by decide) (by decide) (by decide) (by decide)).2.1⟩

theorem dst_rect_bounds (P : Params) (g : Globals) (frame render : Mat) (x y : Nat)
    (hX : 0 ≤ g.X_STEP) (hY : 0 ≤ g.Y_STEP)
    (hx : x < P.RESOLUTION) (hy : y < P.RESOLUTION)
    (hrc : render.cols = frame.cols * P.SCALE) (hrr : render.rows = frame.rows * P.SCALE) :
    0 ≤ (dst_rect P g frame render x y).x ∧ 0 ≤ (dst_rect P g frame render x y).width ∧
    (dst_rect P g frame render x y).x + (dst_rect P g frame render x y).width
      ≤ (render.cols : Int) ∧
    0 ≤ (dst_rect P g frame render x y).y ∧ 0 ≤ (dst_rect P g frame render x y).height ∧
    (dst_rect P g frame render x y).y + (dst_rect P g frame render x y).height
      ≤ (render.rows : Int) := by
  obtain ⟨h1, h2, h3, h4, h5, h6⟩ := cell_rect_bounds P g frame x y hX hY hx hy
  have hs : (0 : Int) ≤ (P.SCALE : Int) := Int.natCast_nonneg _
  rw [dst_rect_scaled P g frame render x y hrc hrr, hrc, hrr]
  simp only
  push_cast
  refine ⟨mul_nonneg h1 hs, mul_nonneg h2 hs, ?_, mul_nonneg h4 hs, mul_nonneg h5 hs, ?_⟩
  · rw [← add_mul]
    exact mul_le_mul_of_nonneg_right h3 hs
  · rw [← add_mul]
    exact mul_le_mul_of_nonneg_right h6 hs

theorem src_rect_bounds (P : Params) (g : Globals) (frame render closest : Mat) (x y : Nat)
    (hX : 0 ≤ g.X_STEP) (hY : 0 ≤ g.Y_STEP)
    (hx : x < P.RESOLUTION) (hy : y < P.RESOLUTION)
    (hrc : render.cols = frame.cols * P.SCALE) (hrr : render.rows = frame.rows * P.SCALE)
    (hcc : (closest.cols : Int) = g.X_STEP * P.SCALE)
    (hcr : (closest.rows : Int) = g.Y_STEP * P.SCALE) :
    (0 : Int) ≤ 0 ∧ 0 ≤ (dst_rect P g frame render x y).width ∧
    0 + (dst_rect P g frame render x y).width ≤ (closest.cols : Int) ∧
    (0 : Int) ≤ 0 ∧ 0 ≤ (dst_rect P g frame render x y).height ∧
    0 + (dst_rect P g frame render x y).height ≤ (closest.rows : Int) := by
  obtain ⟨_, h2, _, _, h5, _⟩ := dst_rect_bounds P g frame render x y hX hY hx hy hrc hrr
  refine ⟨le_refl _, h2, ?_, le_refl _, h5, ?_⟩
  · rw [zero_add, hcc]
    exact min_le_left _ _
  · rw [zero_add, hcr]
    exact min_le_left _ _

/-- Claim C18: for every frame, every grid position and all `X_STEP, Y_STEP >= 0`,
the destination rectangle of `render_frame` has origin
`(origin_x * SCALE, origin_y * SCALE)` and size exactly `SCALE` times the
clipped cell size, that is
`min(X_STEP * SCALE, cols * SCALE - origin_x * SCALE) = SCALE * min(X_STEP, cols - origin_x)`
and likewise vertically; it lies within the canvas, and the equally sized
rectangle at `(0, 0)` lies within a render keyframe of size
`X_STEP * SCALE` by `Y_STEP * SCALE`. -/
theorem dst_rect_is_scaled_cell (P : Params) (g : Globals) (frame render closest : Mat)
    (x y : Nat) (hX : 0 ≤ g.X_STEP) (hY : 0 ≤ g.Y_STEP)
    (hx : x < P.RESOLUTION) (hy : y < P.RESOLUTION)
    (hrc : render.cols = frame.cols * P.SCALE) (hrr : render.rows = frame.rows * P.SCALE)
    (hcc : (closest.cols : Int) = g.X_STEP * P.SCALE)
    (hcr : (closest.rows : Int) = g.Y_STEP * P.SCALE) :
    (dst_rect P g frame render x y).x = clamp_start P x frame.cols * (P.SCALE : Int) ∧
    (dst_rect P g frame render x y).y = clamp_start P y frame.rows * (P.SCALE : Int) ∧
    (dst_rect P g frame render x y).width =
      min (g.X_STEP * (P.SCALE : Int))
        ((frame.cols : Int) * (P.SCALE : Int) - clamp_start P x frame.cols * (P.SCALE : Int)) ∧
    (dst_rect P g frame render x y).height =
      min (g.Y_STEP * (P.SCALE : Int))
        ((frame.rows : Int) * (P.SCALE : Int) - clamp_start P y frame.rows * (P.SCALE : Int)) ∧
    (dst_rect P g frame render x y).width =
      (P.SCALE : Int) * min g.X_STEP ((frame.cols : Int) - clamp_start P x frame.cols) ∧
    (dst_rect P g frame render x y).height =
      (P.SCALE : Int) * min g.Y_STEP ((frame.rows : Int) - clamp_start P y frame.rows) ∧
    (dst_rect P g frame render x y).width = (P.SCALE : Int) * (cell_rect P g frame x y).width ∧
    (dst_rect P g frame render x y).height = (P.SCALE : Int) * (cell_rect P g frame x y).height ∧
    (∃ dst_roi : Mat, render.roi (dst_rect P g frame render x y) = .ok dst_roi) ∧
    (∃ src_roi : Mat,
      closest.roi ⟨0, 0, (dst_rect P g frame render x y).width,
        (dst_rect P g frame render x y).height⟩ = .ok src_roi) := by
  have hscaled := dst_rect_scaled P g frame render x y hrc hrr
  have hw : (dst_rect P g frame render x y).width
      = (P.SCALE : Int) * (cell_rect P g frame x y).width := by
    rw [hscaled]; exact mul_comm _ _
  have hh : (dst_rect P g frame render x y).height
      = (P.SCALE : Int) * (cell_rect P g frame x y).height := by
    rw [hscaled]; exact mul_comm _ _
  refine ⟨rfl, rfl, ?_, ?_, hw, hh, hw, hh, ⟨_, roi_ok render _
      (dst_rect_bounds P g frame render x y hX hY hx hy hrc hrr)⟩,
    ⟨_, roi_ok closest _
      (src_rect_bounds P g frame render closest x y hX hY hx hy hrc hrr hcc hcr)⟩⟩
  · simp only [dst_rect, hrc]; push_cast; rfl
  · simp only [dst_rect, hrr]; push_cast; rfl

theorem foldlM_invariant {α : Type} (Inv : Mat → Prop) (f : Mat → α → Except Exn Mat)
    (l : List α) (hstep : ∀ m a, a ∈ l → Inv m → ∃ m2, f m a = .ok m2 ∧ Inv m2) :
    ∀ m, Inv m → ∃ m2, l.foldlM f m = .ok m2 ∧ Inv m2 := by
  induction l with
  | nil => intro m hm; exact ⟨m, rfl, hm⟩
  | cons a l ih =>
    intro m hm
    obtain ⟨m1, h1, hI1⟩ := hstep m a (List.mem_cons_self a l) hm
    obtain ⟨m2, h2, hI2⟩ := ih (fun m b hb hI => hstep m b (List.mem_cons_of_mem a hb) hI) m1 hI1
    refine ⟨m2, ?_, hI2⟩
    rw [List.foldlM_cons, h1]
    exact h2

theorem get_closest_index_lt (refs : List Mat) (cell : Mat) (hne : refs ≠ []) :
    get_closest_index refs cell < refs.length := by
  obtain ⟨m, hm, _⟩ := get_closest_index_first_min refs cell hne
  by_contra hlt
  rw [List.getElem?_eq_none (Nat.le_of_not_lt hlt)] at hm
  exact Option.some_ne_none m hm.symm

theorem well_sized_steps_nonneg (P : Params) (g : Globals) (cols rows n : Nat)
    (h : Globals.well_sized P g cols rows n) : 0 ≤ g.X_STEP ∧ 0 ≤ g.Y_STEP := by
  obtain ⟨hx, hy, _⟩ := h
  rw [hx, hy]
  exact ⟨ceil_div_nonneg _ _, ceil_div_nonneg _ _⟩

theorem render_cell_ok (P : Params) (g : Globals) (frame render : Mat) (x y : Nat)
    (cols rows n : Nat) (hbank : Globals.well_sized P g cols rows n) (hn : 1 ≤ n)
    (hx : x < P.RESOLUTION) (hy : y < P.RESOLUTION)
    (hrc : render.cols = frame.cols * P.SCALE) (hrr : render.rows = frame.rows * P.SCALE) :
    ∃ out, render_cell P g frame render x y = .ok out ∧
      out.cols = frame.cols * P.SCALE ∧ out.rows = frame.rows * P.SCALE := by
  obtain ⟨hX, hY⟩ := well_sized_steps_nonneg P g cols rows n hbank
  obtain ⟨_, _, hlen, _, hall⟩ := hbank
  have hne : g.ref_keyframes ≠ [] := by
    intro h0
    rw [h0] at hlen
    simp at hlen
    omega
  have h1 := roi_ok frame _ (cell_rect_bounds P g frame x y hX hY hx hy)
  have hidx := get_closest_index_lt g.ref_keyframes
    ⟨(cell_rect P g frame x y).height.toNat, (cell_rect P g frame x y).width.toNat,
      fun y2 x2 => frame.px ((cell_rect P g frame x y).y.toNat + y2)
        ((cell_rect P g frame x y).x.toNat + x2)⟩ hne
  obtain ⟨_, closest, _, hclosest, _, _, hcc, hcr, _, _⟩ := hall _ (hlen ▸ hidx)
  have h3 := roi_ok render _ (dst_rect_bounds P g frame render x y hX hY hx hy hrc hrr)
  have h4 := roi_ok closest
    ⟨0, 0, (dst_rect P g frame render x y).width, (dst_rect P g frame render x y).height⟩
    (src_rect_bounds P g frame render closest x y hX hY hx hy hrc hrr hcc hcr)
  simp only [render_cell, h1, List.get?_eq_getElem?, hclosest, h3, h4, bind, Except.bind, pure,
    Except.pure]
  exact ⟨_, rfl, hrc, hrr⟩

theorem resize_keyframes_well_sized (P : Params)
    (interp : Mat → Nat → Nat → Nat → Nat → Vec3b) (kf : Mat) (rest : List Mat) :
    Globals.well_sized P (resize_keyframes P interp Globals.init (kf :: rest))
      kf.cols kf.rows (rest.length + 1) := by
  rw [resize_keyframes_cons, set_steps_X, set_steps_Y]
  simpa [Globals.init] using
    well_sized_of_maps P interp (fun _ : Mat => kf) (kf :: rest) kf.cols kf.rows

/-- Claim C12: for every frame and every bank of at least one keyframe that
satisfies the size invariant of the bank, `render_frame` returns an image of
exactly `frame.cols * SCALE` columns and `frame.rows * SCALE` rows, whether or
not `RESOLUTION` divides the frame's dimensions. -/
theorem render_frame_canvas_size (P : Params) (g : Globals) (frame : Mat) (cols rows n : Nat)
    (hbank : Globals.well_sized P g cols rows n) (hn : 1 ≤ n) :
    ∃ out, render_frame P g frame = .ok out ∧
      out.cols = frame.cols * P.SCALE ∧ out.rows = frame.rows * P.SCALE := by
  unfold render_frame
  apply foldlM_invariant
    (fun m => m.cols = frame.cols * P.SCALE ∧ m.rows = frame.rows * P.SCALE)
  · intro m y hy hm
    apply foldlM_invariant
      (fun m => m.cols = frame.cols * P.SCALE ∧ m.rows = frame.rows * P.SCALE)
    · intro m2 x hx hm2
      exact render_cell_ok P g frame m2 x y cols rows n hbank hn (List.mem_range.mp hx)
        (List.mem_range.mp hy) hm2.1 hm2.2
    · exact hm
  · exact ⟨rfl, rfl⟩

theorem render_frame_canvas_size_witness :
    (1 ≤ ([] : List Mat).length + 1) ∧
    ∃ out, render_frame Params.program
        (resize_keyframes Params.program nearest Globals.init [solid 10 25 ⟨0, 0, 0⟩])
        (solid 10 25 ⟨7, 7, 7⟩) = .ok out ∧
      out.cols = (solid 10 25 ⟨7, 7, 7⟩).cols * Params.program.SCALE ∧
      out.rows = (solid 10 25 ⟨7, 7, 7⟩).rows * Params.program.SCALE :=
  ⟨by decide,
    render_frame_canvas_size Params.program
      (resize_keyframes Params.program nearest Globals.init [solid 10 25 ⟨0, 0, 0⟩])
      (solid 10 25 ⟨7, 7, 7⟩) (solid 10 25 ⟨0, 0, 0⟩).cols (solid 10 25 ⟨0, 0, 0⟩).rows
      (([] : List Mat).length + 1)
      (resize_keyframes_well_sized Params.program nearest (solid 10 25 ⟨0, 0, 0⟩) [])
      (by decide)⟩

/-- Claim C13, refuted as stated: for a 2x2 cell and a bank holding one 1x1
reference image, `get_closest_index` returns index 0; it does not fail. -/
theorem get_closest_index_accepts_larger_cell :
    (solid 1 1 ⟨0, 0, 0⟩).cols < (solid 2 2 ⟨9, 9, 9⟩).cols ∧
    (solid 1 1 ⟨0, 0, 0⟩).rows < (solid 2 2 ⟨9, 9, 9⟩).rows ∧
    get_closest_index [solid 1 1 ⟨0, 0, 0⟩] (solid 2 2 ⟨9, 9, 9⟩) = 0 := by
  refine ⟨by decide, by decide, by decide⟩

/-- Claim C13, amended: `get_closest_index` performs no size check; when the cell is
larger than a reference image of a non-empty bank it still returns an index of
the bank. -/
theorem get_closest_index_total (refs : List Mat) (cell : Mat) (hne : refs ≠ [])
    (_hbig : ∃ m ∈ refs, m.cols < cell.cols ∨ m.rows < cell.rows) :
    get_closest_index refs cell < refs.length :=
  get_closest_index_lt refs cell hne

theorem get_closest_index_total_witness :
    (∃ m ∈ [solid 1 1 ⟨0, 0, 0⟩, solid 3 3 ⟨9, 9, 9⟩],
      m.cols < (solid 2 2 ⟨9, 9, 9⟩).cols ∨ m.rows < (solid 2 2 ⟨9, 9, 9⟩).rows) ∧
    get_closest_index [solid 1 1 ⟨0, 0, 0⟩, solid 3 3 ⟨9, 9, 9⟩] (solid 2 2 ⟨9, 9, 9⟩)
      < [solid 1 1 ⟨0, 0, 0⟩, solid 3 3 ⟨9, 9, 9⟩].length :=
  ⟨⟨solid 1 1 ⟨0, 0, 0⟩, List.mem_cons_self _ _, Or.inl (by decide)⟩,
    get_closest_index_total [solid 1 1 ⟨0, 0, 0⟩, solid 3 3 ⟨9, 9, 9⟩] (solid 2 2 ⟨9, 9, 9⟩)
      (by simp) ⟨solid 1 1 ⟨0, 0, 0⟩, List.mem_cons_self _ _, Or.inl (by decide)⟩⟩

theorem dst_rect_is_scaled_cell_witness :
    ((0 : Int) ≤ (Globals.mk 2 1 [] []).X_STEP ∧ 17 < Params.program.RESOLUTION ∧
      (Mat.zeros 50 20).cols = (solid 10 25 ⟨7, 7, 7⟩).cols * Params.program.SCALE ∧
      ((Mat.zeros 4 2).cols : Int) = (Globals.mk 2 1 [] []).X_STEP * (Params.program.SCALE : Int)) ∧
    ((dst_rect Params.program (Globals.mk 2 1 [] []) (solid 10 25 ⟨7, 7, 7⟩)
        (Mat.zeros 50 20) 17 17).width
      = (Params.program.SCALE : Int)
        * (cell_rect Params.program (Globals.mk 2 1 [] []) (solid 10 25 ⟨7, 7, 7⟩) 17 17).width) ∧
    (∃ dst_roi : Mat, (Mat.zeros 50 20).roi
      (dst_rect Params.program (Globals.mk 2 1 [] []) (solid 10 25 ⟨7, 7, 7⟩)
        (Mat.zeros 50 20) 17 17) = .ok dst_roi) :=
  ⟨⟨by decide, by decide, rfl, by decide⟩,
    (dst_rect_is_scaled_cell Params.program (Globals.mk 2 1 [] []) (solid 10 25 ⟨7, 7, 7⟩)
      (Mat.zeros 50 20) (Mat.zeros 4 2) 17 17 (by decide) (by decide) (by decide) (by decide)
      rfl rfl (by decide) (by decide)).2.2.2.2.2.2.1,
    (dst_rect_is_scaled_cell Params.program (Globals.mk 2 1 [] []) (solid 10 25 ⟨7, 7, 7⟩)
      (Mat.zeros 50 20) (Mat.zeros 4 2) 17 17 (by decide) (by decide) (by decide) (by decide)
      rfl rfl (by decide) (by decide)).2.2.2.2.2.2.2.2.1⟩

end BadApple
